import Mathlib

/-!
Verification of the rule-resolution and transfer-execution engine of
`gh-oss-helper` (src/utils.ts and src/uploader.ts), shallowly embedded in
Lean 4.  Pure string/number utilities are translated directly; the stateful
uploader is embedded as explicit state passing over `UploadStats`, with the
filesystem (`fs.stat`, `fast-glob`) and the remote client (`oss.put`)
modelled as an explicit environment.  Wall-clock fields (`totalDuration`,
`successRate`) and log output are omitted: no statement below concerns them.
-/

namespace OssHelper

/-! ## Data model (src/types.ts) -/

/-- `UploadRule` from types.ts: a parsed `source:destination` line. -/
structure UploadRule where
  source : String
  destination : String
  isDirectory : Bool
  deriving DecidableEq

/-- The counting fields of `UploadStats` from types.ts.  `totalDuration` and
`successRate` (wall-clock / float) are not modelled. -/
structure UploadStats where
  totalFiles : Nat
  uploadedFiles : Nat
  failedFiles : Nat
  totalSize : Nat
  uploadedSize : Nat
  deriving DecidableEq

/-- The zero statistics installed by the `OSSUploader` constructor. -/
def initStats : UploadStats := ⟨0, 0, 0, 0, 0⟩

/-- The dynamic class of a thrown error: `FileNotFoundError`,
`NetworkError`, or any other error object (the `instanceof` checks). -/
inductive ErrKind where
  | fileNotFound
  | network
  | generic
  deriving DecidableEq

/-- Duck-typed error shape used by `isRetryableError`: optional backend
`code`, optional HTTP `status`, and a free-form `message`. -/
structure UploadError where
  kind : ErrKind
  code : Option String
  status : Option Nat
  message : String
  deriving DecidableEq

/-- The successful-upload record built by `performUpload` (fields not
needed by any claim are dropped). -/
structure UploadResult where
  filePath : String
  objectKey : String
  size : Nat
  deriving DecidableEq

/-- `RetryConfig` from types.ts. -/
structure RetryConfig where
  maxRetries : Nat
  baseDelay : Nat
  maxDelay : Nat
  backoffMultiplier : Nat
  deriving DecidableEq

/-- The retry configuration the `OSSUploader` constructor defaults to. -/
def defaultRetry : RetryConfig := ⟨3, 1000, 10000, 2⟩

/-! ## utils.ts: parseUploadRules -/

/-- JavaScript `String.prototype.trim` on a character list: drop
whitespace from both ends. -/
def trimChars (cs : List Char) : List Char :=
  ((cs.dropWhile Char.isWhitespace).reverse.dropWhile Char.isWhitespace).reverse

/-- JavaScript `String.prototype.split(sep)` for a one-character
separator: every separator occurrence delimits a (possibly empty) field. -/
def splitOnChar (sep : Char) : List Char → List (List Char)
  | [] => [[]]
  | c :: rest =>
    let r := splitOnChar sep rest
    if c = sep then [] :: r
    else
      match r with
      | [] => [[c]]
      | l :: ls => (c :: l) :: ls

/-- Does the string end with `/` (JavaScript `endsWith('/')`)? -/
def endsWithSlash (s : String) : Bool :=
  match s.toList.getLast? with
  | some c => c = '/'
  | none => false

/-- Split a character list at its LAST colon:
`trimmed.lastIndexOf(':')` followed by the two `substring` calls in
`parseUploadRules`.  Returns `none` when no colon occurs
(`separatorIndex === -1`). -/
def splitAtLastColon : List Char → Option (List Char × List Char)
  | [] => none
  | c :: rest =>
    match splitAtLastColon rest with
    | some (b, a) => some (c :: b, a)
    | none => if c = ':' then some ([], rest) else none

/-- One iteration of the `parseUploadRules` loop: `none` means the line is
skipped (blank, no colon, or empty source/destination after trimming). -/
def parseRuleLine (line : String) : Option UploadRule :=
  let trimmed := trimChars line.toList
  if trimmed = [] then none
  else
    match splitAtLastColon trimmed with
    | none => none
    | some (b, a) =>
      let source := String.mk (trimChars b)
      let destination := String.mk (trimChars a)
      if source = "" then none
      else if destination = "" then none
      else some ⟨source, destination, endsWithSlash destination⟩

/-- `parseUploadRules` from utils.ts: split the assets text on newlines and
keep the lines that parse as valid rules, in input order. -/
def parseUploadRules (assets : String) : List UploadRule :=
  (((splitOnChar '\n' assets.toList).map String.mk).filterMap parseRuleLine)

/-! ## utils.ts: small pure helpers -/

/-- `calculateBackoffDelay` from utils.ts:
`Math.min(baseDelay * Math.pow(multiplier, attempt), maxDelay)`. -/
def calculateBackoffDelay (attempt baseDelay maxDelay multiplier : Nat) : Nat :=
  min (baseDelay * multiplier ^ attempt) maxDelay

/-- Collapse every run of consecutive `/` characters to a single `/`
(the `replace(/\/+/g, '/')` step of `sanitizeRemotePath`). -/
def collapseSlashes : List Char → List Char
  | [] => []
  | [c] => [c]
  | c1 :: c2 :: rest =>
    if c1 = '/' ∧ c2 = '/' then collapseSlashes (c2 :: rest)
    else c1 :: collapseSlashes (c2 :: rest)

/-- `sanitizeRemotePath` from utils.ts: strip leading slashes, then
collapse repeated slashes. -/
def sanitizeRemotePath (path : String) : String :=
  String.mk (collapseSlashes (path.toList.dropWhile (fun c => c = '/')))

/-- `path.basename` as used on the `/`-separated absolute paths produced
by fast-glob: the last `/`-separated component. -/
def basename (p : String) : String :=
  String.mk ((splitOnChar '/' p.toList).getLastD p.toList)

/-! ## uploader.ts: error classification -/

/-- The fixed retryable backend error codes in `isRetryableError`. -/
def retryableCodes : List String :=
  ["RequestTimeout", "ServiceUnavailable", "Throttling",
   "InternalError", "ConnectionTimeout", "SocketTimeout"]

/-- The retryable HTTP statuses in `isRetryableError`. -/
def retryableStatuses : List Nat := [408, 429, 500, 502, 503, 504]

/-- JavaScript truthiness of `error.code` (absent or empty string is falsy). -/
def codeTruthy (e : UploadError) : Bool :=
  match e.code with
  | some c => ¬ c = ""
  | none => false

/-- JavaScript truthiness of `error.status` (absent or 0 is falsy). -/
def statusTruthy (e : UploadError) : Bool :=
  match e.status with
  | some s => ¬ s = 0
  | none => false

/-- Does `needle` occur at the start of `hay`? -/
def startsWithChars : List Char → List Char → Bool
  | [], _ => true
  | _ :: _, [] => false
  | a :: as, b :: bs => a = b && startsWithChars as bs

/-- Does `needle` occur anywhere inside `hay`
(JavaScript `String.prototype.includes`)? -/
def hasSubstr (needle : List Char) : List Char → Bool
  | [] => startsWithChars needle []
  | c :: rest => startsWithChars needle (c :: rest) || hasSubstr needle rest

/-- `isRetryableError` from uploader.ts, with the branches in source
order: FileNotFoundError, NetworkError, `error.code`, `error.status`,
"timeout" in the lower-cased message, default `true`. -/
def isRetryableError (e : UploadError) : Bool :=
  match e.kind with
  | .fileNotFound => false
  | .network => true
  | .generic =>
    if codeTruthy e then retryableCodes.contains (e.code.getD "")
    else if statusTruthy e then retryableStatuses.contains (e.status.getD 0)
    else if ¬ e.message = "" ∧ hasSubstr "timeout".toList (e.message.toList.map Char.toLower) then true
    else true

end OssHelper

namespace OssHelper

/-! ## Environment: filesystem and remote client -/

/-- Outcome of `fs.stat` on a path, as consumed by `validateFile` /
`getFileStats` in utils.ts. -/
inductive StatResult where
  | file : Nat → StatResult
  | notFile : StatResult
  | enoent : StatResult
  | failure : UploadError → StatResult

/-- The external world: `fs.stat`, `fast-glob`'s `fg.sync` (with
`dot:false, onlyFiles:true, absolute:true`), `utils.extractRelativePath`
(whose value depends on the process working directory and never influences
statistics), and the OSS client `put` whose outcome may vary with the
attempt index. -/
structure Env where
  stat : String → StatResult
  glob : String → List String
  extractRel : String → String → String
  put : String → String → Nat → Except UploadError Unit

/-- A `FileNotFoundError` carrying the given message. -/
def fileNotFoundError (msg : String) : UploadError :=
  ⟨ErrKind.fileNotFound, none, none, msg⟩

/-- `getFileStats` from utils.ts: `validateFile` (ENOENT or non-file
becomes `FileNotFoundError`, other stat failures are rethrown) followed by
size and basename extraction. -/
def getFileStats (env : Env) (p : String) : Except UploadError (Nat × String) :=
  match env.stat p with
  | .file sz => .ok (sz, basename p)
  | .notFile => .error (fileNotFoundError ("Path is not a file: " ++ p))
  | .enoent => .error (fileNotFoundError p)
  | .failure e => .error e

/-- `performUpload` from uploader.ts: one `oss.put` call, then a second
`getFileStats` to fill in the result record. -/
def performUpload (env : Env) (localPath remotePath : String) (attempt : Nat) :
    Except UploadError UploadResult :=
  match env.put localPath remotePath attempt with
  | .error e => .error e
  | .ok _ =>
    match getFileStats env localPath with
    | .error e => .error e
    | .ok (sz, _) => .ok ⟨localPath, remotePath, sz⟩

/-! ## uploader.ts: uploadWithRetry -/

/-- How the `uploadWithRetry` loop ends: a successful attempt, a thrown
error, or fall-through past the loop (`return null`, only reachable when
`maxRetries = 0`). -/
inductive RetryResult (α : Type) where
  | success : α → RetryResult α
  | thrown : UploadError → RetryResult α
  | exhausted : RetryResult α
  deriving DecidableEq

/-- Trace of one `uploadWithRetry` call: final result, number of
invocations of the upload closure, and the backoff delays awaited. -/
structure RetryTrace (α : Type) where
  result : RetryResult α
  attempts : Nat
  delays : List Nat
  deriving DecidableEq

/-- The body of the `for (let attempt = 0; attempt < maxRetries; ...)`
loop in `uploadWithRetry`.  `fuel` is the number of remaining iterations
(`maxRetries - attempt`); an error throws when it is not retryable or the
attempt is the last one, otherwise the loop sleeps
`calculateBackoffDelay(attempt, ...)` and continues. -/
def retryLoop {α : Type} (cfg : RetryConfig) (att : Nat → Except UploadError α) :
    Nat → Nat → RetryTrace α
  | _, 0 => ⟨.exhausted, 0, []⟩
  | attempt, fuel + 1 =>
    match att attempt with
    | .ok a => ⟨.success a, 1, []⟩
    | .error e =>
      if isRetryableError e = false ∨ attempt = cfg.maxRetries - 1 then
        ⟨.thrown e, 1, []⟩
      else
        let d := calculateBackoffDelay attempt cfg.baseDelay cfg.maxDelay cfg.backoffMultiplier
        let t := retryLoop cfg att (attempt + 1) fuel
        ⟨t.result, t.attempts + 1, d :: t.delays⟩

/-- `uploadWithRetry` from uploader.ts, started at attempt 0 with
`maxRetries` loop iterations available. -/
def uploadWithRetry {α : Type} (cfg : RetryConfig) (att : Nat → Except UploadError α) :
    RetryTrace α :=
  retryLoop cfg att 0 cfg.maxRetries

/-! ## uploader.ts: uploadSingleFile -/

/-- Trace of one `uploadSingleFile` call: updated statistics, the value
returned to the caller (`.error e` models the rethrown
`FileNotFoundError`, `.ok none` models `return null`), and the number of
`oss.put` invocations issued for this file. -/
structure FileTrace where
  stats : UploadStats
  outcome : Except UploadError (Option UploadResult)
  putCalls : Nat

/-- `uploadSingleFile` from uploader.ts: stat the file and add its size to
`totalSize`, run `uploadWithRetry`; a non-null result bumps
`uploadedFiles`/`uploadedSize`; any thrown error bumps `failedFiles` and is
rethrown when it is a `FileNotFoundError`, otherwise swallowed into a
`null` return. -/
def uploadSingleFile (env : Env) (cfg : RetryConfig)
    (localPath remotePath : String) (stats : UploadStats) : FileTrace :=
  match getFileStats env localPath with
  | .error e =>
    let stats1 := { stats with failedFiles := stats.failedFiles + 1 }
    if e.kind = ErrKind.fileNotFound then ⟨stats1, .error e, 0⟩
    else ⟨stats1, .ok none, 0⟩
  | .ok (size, _) =>
    let stats1 := { stats with totalSize := stats.totalSize + size }
    let t := uploadWithRetry cfg (fun attempt => performUpload env localPath remotePath attempt)
    match t.result with
    | .success r =>
      ⟨{ stats1 with
          uploadedFiles := stats1.uploadedFiles + 1,
          uploadedSize := stats1.uploadedSize + size }, .ok (some r), t.attempts⟩
    | .exhausted => ⟨stats1, .ok none, t.attempts⟩
    | .thrown e =>
      let stats2 := { stats1 with failedFiles := stats1.failedFiles + 1 }
      if e.kind = ErrKind.fileNotFound then ⟨stats2, .error e, t.attempts⟩
      else ⟨stats2, .ok none, t.attempts⟩

/-! ## uploader.ts: processRule -/

/-- Does the string contain a glob metacharacter
(`includes('*') || includes('?') || includes('[')`)? -/
def hasGlobChars (s : String) : Bool :=
  s.toList.any (fun c => c = '*' || c = '?' || c = '[')

/-- `sourcePattern.replace(/\\/g, '/')` in `processRule`. -/
def toGlobSlashes (s : String) : String :=
  String.mk (s.toList.map (fun c => if c = '\\' then '/' else c))

/-- `existsSync(p) && statSync(p).isFile()` in `processRule`. -/
def sourceIsExistingFile (env : Env) (p : String) : Bool :=
  match env.stat p with
  | .file _ => true
  | _ => false

/-- The `source/**/*` conversion applied to directory-destination sources. -/
def dirPattern (s : String) : String :=
  if endsWithSlash s then s ++ "**/*" else s ++ "/**/*"

/-- The `sourcePattern` computed at the top of `processRule`: a
directory-destination rule whose source has no glob metacharacters and is
not an existing regular file is expanded to `source/**/*`. -/
def effectivePattern (env : Env) (rule : UploadRule) : String :=
  if rule.isDirectory && !hasGlobChars rule.source then
    if sourceIsExistingFile env rule.source then rule.source
    else dirPattern rule.source
  else rule.source

/-- The remote key computed in the directory branch of `processRule`:
basename for a single concretely-named file, otherwise
`extractRelativePath`. -/
def remoteKeyFor (env : Env) (rule : UploadRule) (files : List String) (file : String) : String :=
  if files.length = 1 && !hasGlobChars rule.source then
    sanitizeRemotePath (rule.destination ++ basename file)
  else
    sanitizeRemotePath (rule.destination ++ env.extractRel file rule.source)

/-- Trace of one `processRule` call: updated statistics, results returned,
the `(localPath, remoteKey)` transfers handed to `uploadSingleFile`, and
the exception propagating out of the rule, if any. -/
structure RuleTrace where
  stats : UploadStats
  results : List UploadResult
  transfers : List (String × String)
  thrown : Option UploadError

/-- The `for (const file of files)` loop of the directory branch of
`processRule`; a rethrown `FileNotFoundError` aborts the remaining files. -/
def processFiles (env : Env) (cfg : RetryConfig) (rule : UploadRule)
    (allFiles : List String) : List String → UploadStats → RuleTrace
  | [], stats => ⟨stats, [], [], none⟩
  | f :: rest, stats =>
    let remotePath := remoteKeyFor env rule allFiles f
    let t := uploadSingleFile env cfg f remotePath stats
    match t.outcome with
    | .error e => ⟨t.stats, [], [(f, remotePath)], some e⟩
    | .ok r =>
      let tr := processFiles env cfg rule allFiles rest t.stats
      ⟨tr.stats, r.toList ++ tr.results, (f, remotePath) :: tr.transfers, tr.thrown⟩

/-- `processRule` from uploader.ts: compute the effective glob pattern,
expand it, apply the zero-match policy (a still-concrete pattern with no
matches counts one total and one failed file, a glob pattern with no
matches contributes nothing), then upload the first file (file
destination) or every file in order (directory destination). -/
def processRule (env : Env) (cfg : RetryConfig) (rule : UploadRule)
    (stats : UploadStats) : RuleTrace :=
  let sourcePattern := effectivePattern env rule
  let files := env.glob (toGlobSlashes sourcePattern)
  match files with
  | [] =>
    if !hasGlobChars sourcePattern then
      ⟨{ stats with
          totalFiles := stats.totalFiles + 1,
          failedFiles := stats.failedFiles + 1 }, [], [], none⟩
    else
      ⟨stats, [], [], none⟩
  | f :: rest =>
    let stats1 := { stats with totalFiles := stats.totalFiles + (f :: rest).length }
    if !rule.isDirectory then
      let t := uploadSingleFile env cfg f rule.destination stats1
      match t.outcome with
      | .error e => ⟨t.stats, [], [(f, rule.destination)], some e⟩
      | .ok (some r) => ⟨t.stats, [r], [(f, rule.destination)], none⟩
      | .ok none => ⟨t.stats, [], [(f, rule.destination)], none⟩
    else
      processFiles env cfg rule (f :: rest) (f :: rest) stats1

/-! ## uploader.ts: uploadFiles -/

/-- Trace of a whole `uploadFiles` run. -/
structure RunTrace where
  stats : UploadStats
  results : List UploadResult
  transfers : List (String × String)

/-- The `for (const rule of rules)` loop of `uploadFiles`: an exception
from `processRule` is caught, logged and counted as one more failed file,
and the remaining rules proceed. -/
def uploadFilesLoop (env : Env) (cfg : RetryConfig) :
    List UploadRule → UploadStats → RunTrace
  | [], stats => ⟨stats, [], []⟩
  | rule :: rest, stats =>
    let tr := processRule env cfg rule stats
    let stats1 :=
      match tr.thrown with
      | some _ => { tr.stats with failedFiles := tr.stats.failedFiles + 1 }
      | none => tr.stats
    let rt := uploadFilesLoop env cfg rest stats1
    ⟨rt.stats, tr.results ++ rt.results, tr.transfers ++ rt.transfers⟩

/-- `uploadFiles` from uploader.ts, run from the constructor's zero
statistics. -/
def uploadFiles (env : Env) (cfg : RetryConfig) (rules : List UploadRule) : RunTrace :=
  uploadFilesLoop env cfg rules initStats

end OssHelper

namespace OssHelper

/-! ## Helper lemmas -/

/-- A list without a colon has no last-colon split. -/
theorem splitAtLastColon_eq_none (cs : List Char) (h : ':' ∉ cs) :
    splitAtLastColon cs = none := by
  induction cs with
  | nil => rfl
  | cons c rest ih =>
    have hc : ¬ c = ':' := fun hc => h (by simp [hc])
    have hr : ':' ∉ rest := fun hr => h (List.mem_cons_of_mem c hr)
    simp [splitAtLastColon, ih hr, hc]

/-- `splitAtLastColon` splits exactly at the last colon: the part after
the split point contains no colon. -/
theorem splitAtLastColon_spec (cs : List Char) (h : ':' ∈ cs) :
    ∃ b a, splitAtLastColon cs = some (b, a) ∧ cs = b ++ ':' :: a ∧ ':' ∉ a := by
  induction cs with
  | nil => cases h
  | cons c rest ih =>
    by_cases hr : ':' ∈ rest
    · obtain ⟨b, a, hsplit, heq, hna⟩ := ih hr
      refine ⟨c :: b, a, ?_, by simp [heq], hna⟩
      simp [splitAtLastColon, hsplit]
    · have hc : c = ':' := by
        rcases List.mem_cons.mp h with hh | hh
        · exact hh.symm
        · exact absurd hh hr
      refine ⟨[], rest, ?_, by simp [hc], hr⟩
      simp [splitAtLastColon, splitAtLastColon_eq_none rest hr, hc]

/-! ## Claim theorems -/

/-- C3: for every non-blank trimmed rule line containing at least one
colon, the parser splits the line on the LAST colon character (the part
after the split point contains no colon, and the line is the
concatenation of the part before, the colon, and the part after); in
particular `C:\file:dest` parses with source `C:\file` (drive-letter
path preserved) and destination `dest`. -/
theorem parser_splits_on_last_colon :
    (∀ cs : List Char, ':' ∈ cs →
      ∃ b a, splitAtLastColon cs = some (b, a) ∧ cs = b ++ ':' :: a ∧ ':' ∉ a) ∧
    parseUploadRules "C:\\file:dest" = [⟨"C:\\file", "dest", false⟩] :=
  ⟨splitAtLastColon_spec, rfl⟩

/-- Witness for C3 at the concrete line `a:b:c`. -/
theorem parser_splits_on_last_colon_witness :
    ∃ b a, splitAtLastColon "a:b:c".toList = some (b, a) ∧
      "a:b:c".toList = b ++ ':' :: a ∧ ':' ∉ a :=
  parser_splits_on_last_colon.1 "a:b:c".toList (by decide)

/-- C7: the backoff delay equals `min (baseDelay * multiplier ^ i) maxDelay`,
is monotonically non-decreasing in the attempt index when the multiplier is
at least 1, is capped at `maxDelay`, and for base 1000, cap 10000,
multiplier 2 yields the sequence 1000, 2000, 4000, 8000, 10000, 10000. -/
theorem backoff_formula_monotone_capped (i base maxD mult : Nat) (hm : 1 ≤ mult) :
    calculateBackoffDelay i base maxD mult = min (base * mult ^ i) maxD ∧
    calculateBackoffDelay i base maxD mult ≤ calculateBackoffDelay (i + 1) base maxD mult ∧
    calculateBackoffDelay i base maxD mult ≤ maxD ∧
    (List.range 6).map (fun j => calculateBackoffDelay j 1000 10000 2) =
      [1000, 2000, 4000, 8000, 10000, 10000] := by
  refine ⟨rfl, ?_, min_le_right _ _, by decide⟩
  have h : base * mult ^ i ≤ base * mult ^ (i + 1) :=
    Nat.mul_le_mul_left base (Nat.pow_le_pow_right hm (Nat.le_succ i))
  exact min_le_min h (le_refl maxD)

/-- Witness for C7 at attempt index 4 with the default configuration. -/
theorem backoff_formula_monotone_capped_witness :
    calculateBackoffDelay 4 1000 10000 2 = min (1000 * 2 ^ 4) 10000 ∧
    calculateBackoffDelay 4 1000 10000 2 ≤ calculateBackoffDelay (4 + 1) 1000 10000 2 ∧
    calculateBackoffDelay 4 1000 10000 2 ≤ 10000 ∧
    (List.range 6).map (fun j => calculateBackoffDelay j 1000 10000 2) =
      [1000, 2000, 4000, 8000, 10000, 10000] :=
  backoff_formula_monotone_capped 4 1000 10000 2 (by decide)

/-- C9: parsing is total and malformed rule lines are dropped: a line whose
trimmed text contains no colon parses to nothing, and the five-line example
input yields exactly the two valid rules, in input order. -/
theorem malformed_rule_lines_dropped :
    (∀ line : String, ':' ∉ trimChars line.toList → parseRuleLine line = none) ∧
    parseUploadRules "src/**/*:dist/\ninvalid\n:nosrc\nnodst:\nREADME.md:docs/r.md" =
      [⟨"src/**/*", "dist/", true⟩, ⟨"README.md", "docs/r.md", false⟩] := by
  refine ⟨?_, rfl⟩
  intro line h
  have hnone : splitAtLastColon (trimChars line.data) = none :=
    splitAtLastColon_eq_none _ h
  by_cases he : trimChars line.data = []
  · simp [parseRuleLine, he]
  · simp [parseRuleLine, he, hnone]

/-- Witness for C9 at the colonless line `invalid`. -/
theorem malformed_rule_lines_dropped_witness : parseRuleLine "invalid" = none :=
  malformed_rule_lines_dropped.1 "invalid" (by decide)

/-- An error object with an unrecognized backend code, meeting every
condition of the default clause claimed by C4. -/
def accessDeniedError : UploadError :=
  ⟨ErrKind.generic, some "AccessDenied", none, "Access denied"⟩

/-- C4 counterexample: an error that is not a FileNotFoundError, not a
NetworkError, whose code `AccessDenied` is NOT in the retryable set, with no
status and no `timeout` in its message, is classified NOT retryable — the
`error.code` check returns the membership result directly instead of
falling through to the retryable-by-default clause. -/
theorem unknown_code_not_retryable :
    accessDeniedError.kind ≠ ErrKind.fileNotFound ∧
    accessDeniedError.kind ≠ ErrKind.network ∧
    retryableCodes.contains "AccessDenied" = false ∧
    accessDeniedError.status = none ∧
    hasSubstr "timeout".toList (accessDeniedError.message.toList.map Char.toLower) = false ∧
    isRetryableError accessDeniedError = false :=
  ⟨by decide, by decide, rfl, rfl, rfl, rfl⟩

/-- C4 (amended): the classification checks its rules in source order and,
for every error that is not a FileNotFoundError, not a NetworkError, and
carries no truthy `code` and no truthy `status`, classifies the error as
retryable (both when the message mentions `timeout` and by default). -/
theorem default_retryable_without_code_or_status (e : UploadError)
    (hk : e.kind = ErrKind.generic) (hc : codeTruthy e = false)
    (hs : statusTruthy e = false) : isRetryableError e = true := by
  unfold isRetryableError
  rw [hk]
  simp [hc, hs]

/-- Witness for the amended C4 at a concrete code-less, status-less error. -/
theorem default_retryable_without_code_or_status_witness :
    isRetryableError ⟨ErrKind.generic, none, none, "weird failure"⟩ = true :=
  default_retryable_without_code_or_status ⟨ErrKind.generic, none, none, "weird failure"⟩
    rfl rfl rfl

end OssHelper

namespace OssHelper

/-- A non-retryable first outcome ends the retry loop at once: one
invocation, no delay, the error thrown. -/
theorem retryLoop_nonretryable {α : Type} (cfg : RetryConfig)
    (att : Nat → Except UploadError α) (attempt fuel : Nat) (e : UploadError)
    (hatt : att attempt = .error e) (hr : isRetryableError e = false) :
    retryLoop cfg att attempt (fuel + 1) = ⟨.thrown e, 1, []⟩ := by
  unfold retryLoop
  rw [hatt]
  simp [hr]

/-- A sample non-retryable error. -/
def fnfSample : UploadError := fileNotFoundError "gone.txt"

/-- An environment in which no path exists. -/
def envMissing : Env :=
  { stat := fun _ => .enoent
    glob := fun _ => []
    extractRel := fun f _ => basename f
    put := fun _ _ _ => .ok () }

/-- C5: a FileNotFoundError is never retried.  (1) the classifier marks
every FileNotFoundError non-retryable; (2) when the local path does not
name an existing regular file, `uploadSingleFile` issues zero `put` calls
and propagates the FileNotFoundError; (3) under `maxRetries = 3`, an
attempt that throws a FileNotFoundError ends `uploadWithRetry` after
exactly one invocation, rethrowing immediately. -/
theorem file_not_found_never_retried :
    (∀ e : UploadError, e.kind = ErrKind.fileNotFound → isRetryableError e = false) ∧
    (∀ (env : Env) (cfg : RetryConfig) (lp rp : String) (stats : UploadStats),
      env.stat lp = StatResult.enoent →
        (uploadSingleFile env cfg lp rp stats).putCalls = 0 ∧
        (uploadSingleFile env cfg lp rp stats).outcome = .error (fileNotFoundError lp)) ∧
    (∀ (cfg : RetryConfig) (att : Nat → Except UploadError Unit) (e : UploadError),
      cfg.maxRetries = 3 → att 0 = .error e → e.kind = ErrKind.fileNotFound →
        (uploadWithRetry cfg att).attempts = 1 ∧
        (uploadWithRetry cfg att).result = RetryResult.thrown e) := by
  refine ⟨?_, ?_, ?_⟩
  · intro e he
    simp [isRetryableError, he]
  · intro env cfg lp rp stats hstat
    constructor <;> simp [uploadSingleFile, getFileStats, hstat, fileNotFoundError]
  · intro cfg att e hmax hatt he
    have hr : isRetryableError e = false := by simp [isRetryableError, he]
    have h3 : retryLoop cfg att 0 3 = ⟨RetryResult.thrown e, 1, []⟩ :=
      retryLoop_nonretryable cfg att 0 2 e hatt hr
    unfold uploadWithRetry
    rw [hmax, h3]
    exact ⟨rfl, rfl⟩

/-- Witness for C5 at a concrete missing file and a concrete throwing
attempt function. -/
theorem file_not_found_never_retried_witness :
    isRetryableError fnfSample = false ∧
    (uploadSingleFile envMissing defaultRetry "gone.txt" "k.txt" initStats).putCalls = 0 ∧
    (uploadWithRetry defaultRetry
      (fun _ => (Except.error fnfSample : Except UploadError Unit))).attempts = 1 :=
  ⟨file_not_found_never_retried.1 fnfSample rfl,
   (file_not_found_never_retried.2.1 envMissing defaultRetry "gone.txt" "k.txt" initStats rfl).1,
   (file_not_found_never_retried.2.2 defaultRetry
     (fun _ => (Except.error fnfSample : Except UploadError Unit)) fnfSample rfl rfl rfl).1⟩

/-- Bounds on the retry loop: starting at `attempt` with
`fuel = maxRetries - attempt ≥ 1` iterations left, the loop never falls
through, performs one more invocation than it sleeps delays, and performs
at most `fuel` invocations. -/
theorem retryLoop_attempt_bounds {α : Type} (cfg : RetryConfig)
    (att : Nat → Except UploadError α) :
    ∀ (fuel attempt : Nat), attempt + fuel = cfg.maxRetries → 1 ≤ fuel →
      (retryLoop cfg att attempt fuel).result ≠ RetryResult.exhausted ∧
      (retryLoop cfg att attempt fuel).attempts =
        (retryLoop cfg att attempt fuel).delays.length + 1 ∧
      (retryLoop cfg att attempt fuel).attempts ≤ fuel := by
  intro fuel
  induction fuel with
  | zero => intro attempt hsum h1; omega
  | succ k ih =>
    intro attempt hsum h1
    unfold retryLoop
    cases hatt : att attempt with
    | ok a => simp
    | error e =>
      by_cases hcond : isRetryableError e = false ∨ attempt = cfg.maxRetries - 1
      · simp [hcond]
      · have hne : ¬ attempt = cfg.maxRetries - 1 := fun hh => hcond (Or.inr hh)
        have hk : 1 ≤ k := by omega
        have hsum2 : (attempt + 1) + k = cfg.maxRetries := by omega
        obtain ⟨hne2, hlen, hle⟩ := ih (attempt + 1) hsum2 hk
        simp only [hcond, if_false]
        refine ⟨hne2, ?_, ?_⟩
        · simp only [List.length_cons]
          omega
        · omega

end OssHelper

namespace OssHelper

/-- C8: with `maxRetries = n ≥ 1`, the retry executor performs at most `n`
total invocations of the upload closure (inclusive of the first try), the
number of backoff delays awaited is exactly one less than the number of
invocations (so a delay occurs only between attempts, never after the
final one), and the loop never falls through without a terminal outcome. -/
theorem retry_attempt_count_and_delays {α : Type} (cfg : RetryConfig)
    (att : Nat → Except UploadError α) (h : 1 ≤ cfg.maxRetries) :
    (uploadWithRetry cfg att).attempts ≤ cfg.maxRetries ∧
    (uploadWithRetry cfg att).attempts = (uploadWithRetry cfg att).delays.length + 1 ∧
    (uploadWithRetry cfg att).result ≠ RetryResult.exhausted := by
  obtain ⟨hne, hlen, hle⟩ :=
    retryLoop_attempt_bounds cfg att cfg.maxRetries 0 (by omega) h
  exact ⟨hle, hlen, hne⟩

/-- A sample retryable error. -/
def netSample : UploadError := ⟨ErrKind.network, none, none, "socket hang up"⟩

/-- Witness for C8 with the default configuration and an attempt function
that always fails with a retryable error. -/
theorem retry_attempt_count_and_delays_witness :
    (uploadWithRetry defaultRetry
      (fun _ => (Except.error netSample : Except UploadError Unit))).attempts ≤
        defaultRetry.maxRetries ∧
    (uploadWithRetry defaultRetry
      (fun _ => (Except.error netSample : Except UploadError Unit))).attempts =
      (uploadWithRetry defaultRetry
        (fun _ => (Except.error netSample : Except UploadError Unit))).delays.length + 1 ∧
    (uploadWithRetry defaultRetry
      (fun _ => (Except.error netSample : Except UploadError Unit))).result ≠
        RetryResult.exhausted :=
  retry_attempt_count_and_delays defaultRetry
    (fun _ => (Except.error netSample : Except UploadError Unit)) (by decide)

/-- An environment whose filesystem is empty: every stat fails with ENOENT
and every glob expansion matches nothing. -/
def envEmptyFs : Env :=
  { stat := fun _ => .enoent
    glob := fun _ => []
    extractRel := fun f _ => basename f
    put := fun _ _ _ => .ok () }

/-- C2 counterexample: a rule whose source `missing.txt` is a concrete
(non-glob) path referring to no existing file, but whose destination is
directory-style, is converted to the glob `missing.txt/**/*` before
expansion, so its zero matches are treated as a non-fatal empty result:
neither `totalFiles` nor `failedFiles` is incremented, contradicting the
claimed unconditional +1/+1 for concrete missing sources. -/
theorem concrete_missing_dir_rule_not_counted :
    hasGlobChars "missing.txt" = false ∧
    envEmptyFs.stat "missing.txt" = StatResult.enoent ∧
    (processRule envEmptyFs defaultRetry ⟨"missing.txt", "uploads/", true⟩
      initStats).stats.totalFiles = 0 ∧
    (processRule envEmptyFs defaultRetry ⟨"missing.txt", "uploads/", true⟩
      initStats).stats.failedFiles = 0 :=
  ⟨rfl, rfl, rfl, rfl⟩

/-- C2 (amended): when the glob expansion of the rule source matches
nothing, a rule with a file-style destination and a concrete (non-glob)
source counts one total and one failed file; a rule whose source is a glob
pattern contributes nothing to the statistics.  (A concrete missing source
with a directory-style destination falls into neither case: it is first
converted to the glob `source/**/*`.) -/
theorem zero_match_policy (env : Env) (cfg : RetryConfig) (rule : UploadRule)
    (stats : UploadStats)
    (hempty : env.glob (toGlobSlashes rule.source) = []) :
    (rule.isDirectory = false → hasGlobChars rule.source = false →
      (processRule env cfg rule stats).stats =
        { stats with
            totalFiles := stats.totalFiles + 1,
            failedFiles := stats.failedFiles + 1 } ∧
      (processRule env cfg rule stats).results = [] ∧
      (processRule env cfg rule stats).thrown = none) ∧
    (hasGlobChars rule.source = true →
      (processRule env cfg rule stats).stats = stats ∧
      (processRule env cfg rule stats).results = [] ∧
      (processRule env cfg rule stats).thrown = none) := by
  constructor
  · intro hdir hglob
    have hpat : effectivePattern env rule = rule.source := by
      simp [effectivePattern, hdir]
    refine ⟨?_, ?_, ?_⟩ <;> simp [processRule, hpat, hempty, hglob]
  · intro hglob
    have hpat : effectivePattern env rule = rule.source := by
      simp [effectivePattern, hglob]
    refine ⟨?_, ?_, ?_⟩ <;> simp [processRule, hpat, hempty, hglob]

/-- Witness for the amended C2: a concrete missing source with a file
destination counts 1/1; a glob source with no matches counts nothing. -/
theorem zero_match_policy_witness :
    (processRule envEmptyFs defaultRetry ⟨"missing.txt", "remote.txt", false⟩
      initStats).stats =
      { initStats with
          totalFiles := initStats.totalFiles + 1,
          failedFiles := initStats.failedFiles + 1 } ∧
    (processRule envEmptyFs defaultRetry ⟨"src/**/*", "dist/", true⟩
      initStats).stats = initStats :=
  ⟨((zero_match_policy envEmptyFs defaultRetry ⟨"missing.txt", "remote.txt", false⟩
      initStats rfl).1 rfl rfl).1,
   ((zero_match_policy envEmptyFs defaultRetry ⟨"src/**/*", "dist/", true⟩
      initStats rfl).2 rfl).1⟩

end OssHelper

namespace OssHelper

/-- Uploading a one-element file list in the directory branch issues
exactly one transfer, whatever its outcome. -/
theorem processFiles_single_transfers (env : Env) (cfg : RetryConfig)
    (rule : UploadRule) (f : String) (stats : UploadStats) :
    (processFiles env cfg rule [f] [f] stats).transfers =
      [(f, remoteKeyFor env rule [f] f)] := by
  unfold processFiles
  cases h : (uploadSingleFile env cfg f (remoteKeyFor env rule [f] f) stats).outcome with
  | error e => simp [h]
  | ok r => simp [h, processFiles]

/-- An environment containing the single regular file `logo.zip`
(absolute path `/w/logo.zip`, size 3). -/
def envLogo : Env :=
  { stat := fun p => if p = "logo.zip" ∨ p = "/w/logo.zip" then .file 3 else .enoent
    glob := fun p => if p = "logo.zip" then ["/w/logo.zip"] else []
    extractRel := fun f _ => basename f
    put := fun _ _ _ => .ok () }

/-- C6: a rule whose source is a single existing concrete file (no glob
metacharacters) and whose destination is directory-style resolves to
exactly one transfer whose remote key is the sanitized concatenation of
the destination and the file basename; concretely, `logo.zip` to
`uploads/` yields exactly the one transfer keyed `uploads/logo.zip`. -/
theorem single_file_to_directory_one_transfer :
    (∀ (env : Env) (cfg : RetryConfig) (rule : UploadRule) (stats : UploadStats)
        (f : String) (sz : Nat),
      rule.isDirectory = true → hasGlobChars rule.source = false →
      env.stat rule.source = StatResult.file sz →
      env.glob (toGlobSlashes rule.source) = [f] →
      (processRule env cfg rule stats).transfers =
        [(f, sanitizeRemotePath (rule.destination ++ basename f))]) ∧
    (processRule envLogo defaultRetry ⟨"logo.zip", "uploads/", true⟩
      initStats).transfers = [("/w/logo.zip", "uploads/logo.zip")] ∧
    (processRule envLogo defaultRetry ⟨"logo.zip", "uploads/", true⟩
      initStats).transfers.length = 1 := by
  refine ⟨?_, rfl, rfl⟩
  intro env cfg rule stats f sz hdir hglob hfile hmatch
  have hpat : effectivePattern env rule = rule.source := by
    simp [effectivePattern, hdir, hglob, sourceIsExistingFile, hfile]
  have hkey : remoteKeyFor env rule [f] f =
      sanitizeRemotePath (rule.destination ++ basename f) := by
    simp [remoteKeyFor, hglob]
  simp only [processRule, hpat, hmatch, hdir]
  simp [processFiles_single_transfers, hkey]

/-- Witness for C6 at the concrete `logo.zip` environment. -/
theorem single_file_to_directory_one_transfer_witness :
    (processRule envLogo defaultRetry ⟨"logo.zip", "uploads/", true⟩
      initStats).transfers =
      [("/w/logo.zip", sanitizeRemotePath ("uploads/" ++ basename "/w/logo.zip"))] :=
  single_file_to_directory_one_transfer.1 envLogo defaultRetry
    ⟨"logo.zip", "uploads/", true⟩ initStats "/w/logo.zip" 3 rfl rfl rfl rfl

/-- With `maxRetries = 0` the retry loop body never runs: no attempt is
made and the loop falls through to `return null`. -/
theorem uploadWithRetry_zero {α : Type} (cfg : RetryConfig)
    (att : Nat → Except UploadError α) (h : cfg.maxRetries = 0) :
    uploadWithRetry cfg att = ⟨RetryResult.exhausted, 0, []⟩ := by
  unfold uploadWithRetry
  rw [h]
  rfl

/-- C10: with `maxRetries = 0`, (1) `uploadWithRetry` performs zero
attempts and returns null rather than throwing; (2) for a file that stats
successfully, `uploadSingleFile` adds its size to `totalSize` but bumps
neither `uploadedFiles` nor `failedFiles` and issues no `put` call; (3) an
end-to-end run over one matching resolvable file reports one total file,
zero uploaded, zero failed — so `uploadedFiles + failedFiles <
totalFiles` — and an empty result list, with no error surfaced. -/
theorem zero_max_retries_silently_skips :
    (∀ (cfg : RetryConfig) (att : Nat → Except UploadError UploadResult),
      cfg.maxRetries = 0 → uploadWithRetry cfg att = ⟨RetryResult.exhausted, 0, []⟩) ∧
    (∀ (env : Env) (cfg : RetryConfig) (lp rp : String) (stats : UploadStats) (sz : Nat),
      cfg.maxRetries = 0 → env.stat lp = StatResult.file sz →
      uploadSingleFile env cfg lp rp stats =
        ⟨{ stats with totalSize := stats.totalSize + sz }, Except.ok none, 0⟩) ∧
    (∀ (env : Env) (cfg : RetryConfig) (rule : UploadRule) (f : String) (sz : Nat),
      cfg.maxRetries = 0 → rule.isDirectory = false →
      env.glob (toGlobSlashes rule.source) = [f] → env.stat f = StatResult.file sz →
      (uploadFiles env cfg [rule]).stats.totalFiles = 1 ∧
      (uploadFiles env cfg [rule]).stats.uploadedFiles = 0 ∧
      (uploadFiles env cfg [rule]).stats.failedFiles = 0 ∧
      (uploadFiles env cfg [rule]).stats.uploadedFiles +
        (uploadFiles env cfg [rule]).stats.failedFiles <
        (uploadFiles env cfg [rule]).stats.totalFiles ∧
      (uploadFiles env cfg [rule]).results = []) := by
  have h2 : ∀ (env : Env) (cfg : RetryConfig) (lp rp : String) (stats : UploadStats) (sz : Nat),
      cfg.maxRetries = 0 → env.stat lp = StatResult.file sz →
      uploadSingleFile env cfg lp rp stats =
        ⟨{ stats with totalSize := stats.totalSize + sz }, Except.ok none, 0⟩ := by
    intro env cfg lp rp stats sz h hstat
    simp [uploadSingleFile, getFileStats, hstat, uploadWithRetry_zero cfg _ h]
  refine ⟨fun cfg att h => uploadWithRetry_zero cfg att h, h2, ?_⟩
  intro env cfg rule f sz h hdir hglob hstat
  have hpat : effectivePattern env rule = rule.source := by
    simp [effectivePattern, hdir]
  have hfile := h2 env cfg f rule.destination ⟨1, 0, 0, 0, 0⟩ sz h hstat
  have hrun : uploadFiles env cfg [rule] =
      ⟨⟨1, 0, 0, sz, 0⟩, [], [(f, rule.destination)]⟩ := by
    simp [uploadFiles, uploadFilesLoop, processRule, hpat, hglob, hdir, initStats, hfile]
  rw [hrun]
  exact ⟨rfl, rfl, rfl, Nat.zero_lt_one, rfl⟩

/-- The zero-retries configuration used by the C10 witness. -/
def cfgZeroRetries : RetryConfig := ⟨0, 1000, 10000, 2⟩

/-- An environment containing the single regular file `a.txt`
(absolute path `/w/a.txt`, size 5). -/
def envSmall : Env :=
  { stat := fun p => if p = "a.txt" ∨ p = "/w/a.txt" then .file 5 else .enoent
    glob := fun p => if p = "a.txt" then ["/w/a.txt"] else []
    extractRel := fun f _ => basename f
    put := fun _ _ _ => .ok () }

/-- Witness for C10: a single-rule run with `maxRetries = 0` over an
existing file ends with 1 total, 0 uploaded, 0 failed, no results. -/
theorem zero_max_retries_silently_skips_witness :
    (uploadFiles envSmall cfgZeroRetries [⟨"a.txt", "remote.txt", false⟩]).stats.totalFiles = 1 ∧
    (uploadFiles envSmall cfgZeroRetries [⟨"a.txt", "remote.txt", false⟩]).stats.uploadedFiles = 0 ∧
    (uploadFiles envSmall cfgZeroRetries [⟨"a.txt", "remote.txt", false⟩]).stats.failedFiles = 0 ∧
    (uploadFiles envSmall cfgZeroRetries [⟨"a.txt", "remote.txt", false⟩]).stats.uploadedFiles +
      (uploadFiles envSmall cfgZeroRetries [⟨"a.txt", "remote.txt", false⟩]).stats.failedFiles <
      (uploadFiles envSmall cfgZeroRetries [⟨"a.txt", "remote.txt", false⟩]).stats.totalFiles ∧
    (uploadFiles envSmall cfgZeroRetries [⟨"a.txt", "remote.txt", false⟩]).results = [] :=
  zero_max_retries_silently_skips.2.2 envSmall cfgZeroRetries
    ⟨"a.txt", "remote.txt", false⟩ "/w/a.txt" 5 rfl rfl rfl rfl

/-- An environment in which the glob expansion still lists
`/w/docs/a.txt` but the file no longer stats (deleted between discovery
and upload), so `getFileStats` raises `FileNotFoundError`. -/
def envVanish : Env :=
  { stat := fun _ => .enoent
    glob := fun p => if p = "docs/*" then ["/w/docs/a.txt"] else []
    extractRel := fun f _ => basename f
    put := fun _ _ _ => .error netSample }

/-- C1: evaluation at the failing input.  One directory rule glob-matches
exactly one file which fails to stat: `uploadSingleFile` increments
`failedFiles` and rethrows the FileNotFoundError, and the `uploadFiles`
catch block increments `failedFiles` AGAIN for the same file, ending the
run with `totalFiles = 1` but `failedFiles = 2`, so the claimed invariant
`uploadedFiles + failedFiles ≤ totalFiles` is violated. -/
theorem stats_invariant_violated_on_fnf_rethrow :
    (uploadFiles envVanish defaultRetry [⟨"docs/*", "uploads/", true⟩]).stats.totalFiles = 1 ∧
    (uploadFiles envVanish defaultRetry [⟨"docs/*", "uploads/", true⟩]).stats.uploadedFiles = 0 ∧
    (uploadFiles envVanish defaultRetry [⟨"docs/*", "uploads/", true⟩]).stats.failedFiles = 2 ∧
    ¬ ((uploadFiles envVanish defaultRetry [⟨"docs/*", "uploads/", true⟩]).stats.uploadedFiles +
        (uploadFiles envVanish defaultRetry [⟨"docs/*", "uploads/", true⟩]).stats.failedFiles ≤
        (uploadFiles envVanish defaultRetry [⟨"docs/*", "uploads/", true⟩]).stats.totalFiles) :=
  ⟨rfl, rfl, rfl, by decide⟩

end OssHelper
